import Mathlib

/-!
Verification of the `UnionFindSolver` at the heart of the tipc type checker
(`UnionFindSolver.cpp`): a string-keyed union-find forest whose equivalence
classes carry an optional `TIPtype*` payload, used by the type-inference pass.

The embedding is shallow and faithful to the C++ source:
* identifiers are `String`s, the two `std::map`s (`node2root`, `node2type`)
  become total functions together with the list `dom` of registered keys
  (`addNode` inserts into both maps with the same key set, so one domain list
  suffices);
* `TIPtype*` payloads are modelled as addresses (`Ptr := Nat`) into a
  read-only heap of terms, with `0` playing the role of `nullptr`; this keeps
  the pointer-equality shortcut of `sameType` and the pointer-copying done by
  `unifyNodes` observable;
* the `while` loop of `findRoot` becomes a fuel-bounded chase (`chase`), with
  fuel `dom.length`; for every state reachable through the solver's public
  operations the chase provably lands on a self-parented root, so the fuel
  never runs out and the model coincides with the unbounded loop;
* `throw TIPTypeError(msg)` becomes returning `some msg` next to the state the
  maps are left in when the exception propagates.
-/

/-- Comma-separated concatenation, as used by the printed forms of terms. -/
def commaSep (xs : List String) : String :=
  String.intercalate "," xs

/-- Insert a string into a lexicographically sorted list. -/
def insertStr (x : String) : List String → List String
  | [] => [x]
  | y :: ys => if x ≤ y then x :: y :: ys else y :: insertStr x ys

/-- Insertion sort for strings (printing normalises record field order). -/
def sortStrs : List String → List String
  | [] => []
  | x :: xs => insertStr x (sortStrs xs)

mutual
/-- Modelled from the spec: the `TIPtype` term hierarchy (integer, type
variable, function, pointer and record terms) is declared in headers that are
not among the provided sources; the variants follow the spec's data model
(§3): `Int`, `Var(id)`, `Function(params, result)`, `Pointer(inner)`,
`Record(fields)`. -/
inductive TIPtype : Type where
  | int : TIPtype
  | var : Nat → TIPtype
  | fn : TIPlist → TIPtype → TIPtype
  | ptr : TIPtype → TIPtype
  | record : TIPfields → TIPtype

/-- An ordered sequence of type terms (function parameter lists). -/
inductive TIPlist : Type where
  | nil : TIPlist
  | cons : TIPtype → TIPlist → TIPlist

/-- An ordered sequence of named fields of a record term. -/
inductive TIPfields : Type where
  | nil : TIPfields
  | cons : String → TIPtype → TIPfields → TIPfields
end

mutual
/-- Modelled from the spec: `TIPtype::print` (not among the provided sources)
renders a term canonically — stable, injective over constructible shapes,
type variables in the reference α-subscript form, record fields normalised
lexicographically before concatenation (§4.2, §9). -/
def tipPrint : TIPtype → String
  | .int => "int"
  | .var i => "α<" ++ Nat.repr i ++ ">"
  | .fn ps r => "(" ++ commaSep (tipPrintArgs ps) ++ ")->" ++ tipPrint r
  | .ptr t => "&" ++ tipPrint t
  | .record fs => "\x7b" ++ commaSep (sortStrs (tipPrintFields fs)) ++ "\x7d"

/-- Printed forms of a parameter list. -/
def tipPrintArgs : TIPlist → List String
  | .nil => []
  | .cons t ts => tipPrint t :: tipPrintArgs ts

/-- Printed forms (`name:type`) of a record's fields. -/
def tipPrintFields : TIPfields → List String
  | .nil => []
  | .cons f t ts => (f ++ ":" ++ tipPrint t) :: tipPrintFields ts
end

/-- A `TIPtype*` value: the address of a term, `0` standing for `nullptr`. -/
abbrev Ptr := Nat

/-- The read-only store of type terms the solver's payload pointers point
into.  The solver itself never allocates or mutates terms, so the heap is a
fixed ambient function; address `0` is never dereferenced (it is `nullptr`,
guarded by the null checks of the source). -/
abbrev Heap := Nat → TIPtype

/-- The state of `UnionFindSolver`: the key set shared by the two `std::map`s
(`dom`), the parent map `node2root` and the payload map `node2type`.  Keys
outside `dom` carry the values `addNode` would give them (`n ↦ n`,
`n ↦ nullptr`), which is an invariant of every reachable state. -/
structure Solver : Type where
  dom : List String
  node2root : String → String
  node2type : String → Ptr

/-- A freshly constructed solver: no registered identifiers. -/
def Solver.init : Solver :=
  { dom := [], node2root := fun n => n, node2type := fun _ => 0 }

/-- `UnionFindSolver::addNode`: register `node_str` self-rooted and with a
null payload if it is absent (the source checks `node2root` and `node2type`
separately; their key sets always coincide). -/
def addNode (s : Solver) (n : String) : Solver :=
  if n ∈ s.dom then s
  else
    { dom := n :: s.dom
      node2root := Function.update s.node2root n n
      node2type := Function.update s.node2type n 0 }

/-- The parent-chasing loop of `UnionFindSolver::findRoot`
(`while (node2root[node_str] != node_str) node_str = node2root[node_str]`),
bounded by fuel. -/
def chase (r : String → String) : Nat → String → String
  | 0, n => n
  | k + 1, n => if r n = n then n else chase r k (r n)

/-- The root `findRoot` computes in state `s`, as a pure observation: chase
parent links with fuel `s.dom.length` (sufficient in every reachable state,
see `SolverInv.rooted` and `rootD_isRoot`). -/
def rootD (s : Solver) (n : String) : String :=
  chase s.node2root s.dom.length n

/-- `UnionFindSolver::findRoot`: registers `node_str` via `addNode`, then
follows parent links to a self-parented identifier.  Returns the state it
leaves behind together with the root. -/
def findRoot (s : Solver) (n : String) : Solver × String :=
  let s1 := addNode s n
  (s1, rootD s1 n)

/-- `UnionFindSolver::sameType`: pointer equality, then the null checks, then
equality of printed forms. -/
def sameType (h : Heap) (px py : Ptr) : Bool :=
  if px = py then true
  else if px = 0 ∨ py = 0 then false
  else tipPrint (h px) == tipPrint (h py)

/-- `UnionFindSolver::unifyNodes`: register both identifiers, find both
roots; no-op if they coincide; if a root has no payload it inherits the other
root's payload pointer and is linked underneath it; two null-incompatible
payloads raise `TIPTypeError` with the source's message; otherwise link
`rootx` under `rooty`.  The returned `Option String` is the thrown error
message, `none` on normal return. -/
def unifyNodes (h : Heap) (s : Solver) (x y : String) : Solver × Option String :=
  let s1 := addNode s x
  let s2 := addNode s1 y
  let p3 := findRoot s2 x
  let p4 := findRoot p3.1 y
  let s4 := p4.1
  let rx := p3.2
  let ry := p4.2
  if rx = ry then (s4, none)
  else if s4.node2type rx = 0 then
    ({ s4 with node2type := Function.update s4.node2type rx (s4.node2type ry)
               node2root := Function.update s4.node2root rx ry }, none)
  else if s4.node2type ry = 0 then
    ({ s4 with node2type := Function.update s4.node2type ry (s4.node2type rx)
               node2root := Function.update s4.node2root ry rx }, none)
  else if ¬ sameType h (s4.node2type rx) (s4.node2type ry) then
    (s4, some (" Type error: " ++ x ++ " " ++ tipPrint (h (s4.node2type rx)) ++
               " does not match " ++ tipPrint (h (s4.node2type ry))))
  else
    ({ s4 with node2root := Function.update s4.node2root rx ry }, none)

/-- `UnionFindSolver::setType`: register `node_str`, find its root; attach
the payload if the root has none; otherwise raise `TIPTypeError` with the
source's message when the existing payload and the new one differ, and do
nothing on a compatible re-set. -/
def setType (h : Heap) (s : Solver) (n : String) (p : Ptr) : Solver × Option String :=
  let s1 := addNode s n
  let p2 := findRoot s1 n
  let s2 := p2.1
  let r := p2.2
  if s2.node2type r = 0 then
    ({ s2 with node2type := Function.update s2.node2type r p }, none)
  else if ¬ sameType h (s2.node2type r) p then
    (s2, some (" Type error: " ++ r ++ tipPrint (h (s2.node2type r)) ++
               " does not match type: " ++ tipPrint (h p)))
  else (s2, none)

/-- `UnionFindSolver::getType`: register `node_str`, find its root, return
the root's payload pointer (`0` = still unconstrained). -/
def getType (s : Solver) (n : String) : Solver × Ptr :=
  let s1 := addNode s n
  let p2 := findRoot s1 n
  (p2.1, p2.1.node2type p2.2)

/-- The payload `getType` returns in state `s`, as a pure observation. -/
def getTypeD (s : Solver) (n : String) : Ptr :=
  s.node2type (rootD s n)

/-- The branch structure of `unifyNodes` after both identifiers are
registered and both roots are computed (the tail of the source function),
factored out so each branch can be reasoned about by plain rewriting. -/
def unifyCore (h : Heap) (s4 : Solver) (x : String) (rx ry : String) :
    Solver × Option String :=
  if rx = ry then (s4, none)
  else if s4.node2type rx = 0 then
    ({ s4 with node2type := Function.update s4.node2type rx (s4.node2type ry)
               node2root := Function.update s4.node2root rx ry }, none)
  else if s4.node2type ry = 0 then
    ({ s4 with node2type := Function.update s4.node2type ry (s4.node2type rx)
               node2root := Function.update s4.node2root ry rx }, none)
  else if ¬ sameType h (s4.node2type rx) (s4.node2type ry) then
    (s4, some (" Type error: " ++ x ++ " " ++ tipPrint (h (s4.node2type rx)) ++
               " does not match " ++ tipPrint (h (s4.node2type ry))))
  else
    ({ s4 with node2root := Function.update s4.node2root rx ry }, none)

/-- The branch structure of `setType` after the identifier is registered and
its root is computed (the tail of the source function). -/
def setTypeCore (h : Heap) (s2 : Solver) (r : String) (p : Ptr) :
    Solver × Option String :=
  if s2.node2type r = 0 then
    ({ s2 with node2type := Function.update s2.node2type r p }, none)
  else if ¬ sameType h (s2.node2type r) p then
    (s2, some (" Type error: " ++ r ++ tipPrint (h (s2.node2type r)) ++
               " does not match type: " ++ tipPrint (h p)))
  else (s2, none)

/-- The invariant every solver state reachable through the public operations
satisfies: unregistered identifiers are self-parented with a null payload,
parents of registered identifiers are registered, every parent chain
eventually reaches a self-parented identifier, and each registered
identifier's payload (when non-null) is structurally identical to the payload
at its root — so every equivalence class agrees on at most one payload up to
structural identity. -/
structure SolverInv (h : Heap) (s : Solver) : Prop where
  wf1root : ∀ n, n ∉ s.dom → s.node2root n = n
  wf1type : ∀ n, n ∉ s.dom → s.node2type n = 0
  wf2 : ∀ n, n ∈ s.dom → s.node2root n ∈ s.dom
  rooted : ∀ n, ∃ k, s.node2root (s.node2root^[k] n) = s.node2root^[k] n
  coh : ∀ n, s.node2type n ≠ 0 →
    sameType h (s.node2type n) (s.node2type (rootD s n)) = true

/-- The solver states reachable from a fresh solver by sequences of the
public operations.  `findRoot` and `getType` mutate the maps only through
`addNode` (their final states are iterated `addNode`s), so the `addNode`
constructor covers them. -/
inductive Reachable (h : Heap) : Solver → Prop where
  | init : Reachable h Solver.init
  | step_addNode : ∀ {s : Solver} (n : String),
      Reachable h s → Reachable h (addNode s n)
  | step_unify : ∀ {s : Solver} (x y : String),
      Reachable h s → Reachable h (unifyNodes h s x y).1
  | step_setType : ∀ {s : Solver} (n : String) (p : Ptr),
      Reachable h s → Reachable h (setType h s n p).1

/-- The error-message shape asserted by the spec: `"Type error: <context>
<printed term A> does not match <printed term B>"` for some context and some
printed terms. -/
def specErrorForm (m : String) : Prop :=
  ∃ ctx a b : String,
    m = "Type error: " ++ ctx ++ " " ++ a ++ " does not match " ++ b

/-- A concrete heap of terms used for the concrete executions below:
address 1 holds `int`, address 2 holds `&int`, address 3 holds the free
variable `α<0>`; address 0 is `nullptr`. -/
def exHeap : Heap := fun a =>
  if a = 1 then TIPtype.int
  else if a = 2 then TIPtype.ptr TIPtype.int
  else TIPtype.var 0

/-- A concrete solver run: `"x"` is fixed to the `int` at address 1. -/
def exS1 : Solver := (setType exHeap Solver.init "x" 1).1

/-- A concrete solver run: additionally `"y"` is fixed to the `&int` at
address 2. -/
def exS2 : Solver := (setType exHeap exS1 "y" 2).1

/-! ### Elementary facts about the parent chase -/

/-- The early-exit chase coincides with plain function iteration: once a
self-parented identifier is reached, iteration stays there anyway. -/
theorem chase_eq_iterate (r : String → String) (k : Nat) (n : String) :
    chase r k n = r^[k] n := by
  induction k generalizing n with
  | zero => rfl
  | succ k ih =>
    rw [chase, Function.iterate_succ_apply]
    by_cases hn : r n = n
    · rw [if_pos hn, hn, Function.iterate_fixed hn]
    · rw [if_neg hn, ih]

/-- Chasing from a self-parented identifier goes nowhere. -/
theorem chase_fixed (r : String → String) (k : Nat) (n : String) (hn : r n = n) :
    chase r k n = n := by
  rw [chase_eq_iterate]; exact Function.iterate_fixed hn k

/-- Two self-parented identifiers reachable from the same starting point by
iterating the parent map are equal. -/
theorem iterate_root_unique (r : String → String) (n m₁ m₂ : String)
    (k₁ k₂ : Nat) (h₁ : r^[k₁] n = m₁) (h₂ : r^[k₂] n = m₂)
    (hr₁ : r m₁ = m₁) (hr₂ : r m₂ = m₂) : m₁ = m₂ := by
  rcases Nat.le_total k₁ k₂ with hle | hle
  · have : r^[k₂] n = m₁ := by
      have : r^[(k₂ - k₁) + k₁] n = m₁ := by
        rw [Function.iterate_add_apply, h₁, Function.iterate_fixed hr₁]
      rwa [Nat.sub_add_cancel hle] at this
    rw [← h₂, this]
  · have : r^[k₁] n = m₂ := by
      have : r^[(k₁ - k₂) + k₂] n = m₂ := by
        rw [Function.iterate_add_apply, h₂, Function.iterate_fixed hr₂]
      rwa [Nat.sub_add_cancel hle] at this
    rw [← h₁, this]

/-- Counting argument behind the fuel bound of `findRoot`: if every
identifier outside `D` is self-parented and the chain from `n` reaches some
self-parented identifier, then it does so within `D.length` steps — the
not-yet-self-parented prefix of the chain consists of pairwise distinct
members of `D`. -/
theorem iterate_hit_bound (r : String → String) (D : List String)
    (hw1 : ∀ x, x ∉ D → r x = x) (n : String)
    (hk : ∃ k, r (r^[k] n) = r^[k] n) :
    r (r^[D.length] n) = r^[D.length] n := by
  classical
  set m := Nat.find hk with hmdef
  have hm : r (r^[m] n) = r^[m] n := Nat.find_spec hk
  have hmin : ∀ i, i < m → r (r^[i] n) ≠ r^[i] n := fun i hi => Nat.find_min hk hi
  have hinj : Set.InjOn (fun i => r^[i] n) (Finset.range m) := by
    intro i hi j hj hij
    simp only [Finset.coe_range, Set.mem_Iio] at hi hj
    simp only at hij
    by_contra hne
    rcases Nat.lt_or_ge i j with hlt | hge
    · have hrep : r^[m - j + i] n = r^[m] n := by
        have h1 : r^[m - j + j] n = r^[m] n := by
          rw [Nat.sub_add_cancel (Nat.le_of_lt hj)]
        calc r^[m - j + i] n = r^[m - j] (r^[i] n) := Function.iterate_add_apply r _ i n
          _ = r^[m - j] (r^[j] n) := by rw [hij]
          _ = r^[m - j + j] n := (Function.iterate_add_apply r _ j n).symm
          _ = r^[m] n := h1
      have hlt' : m - j + i < m := by omega
      exact hmin _ hlt' (by rw [hrep]; exact hm)
    · have hlt : j < i := Nat.lt_of_le_of_ne hge (fun hh => hne hh.symm)
      have hrep : r^[m - i + j] n = r^[m] n := by
        have h1 : r^[m - i + i] n = r^[m] n := by
          rw [Nat.sub_add_cancel (Nat.le_of_lt hi)]
        calc r^[m - i + j] n = r^[m - i] (r^[j] n) := Function.iterate_add_apply r _ j n
          _ = r^[m - i] (r^[i] n) := by rw [hij]
          _ = r^[m - i + i] n := (Function.iterate_add_apply r _ i n).symm
          _ = r^[m] n := h1
      have hlt' : m - i + j < m := by omega
      exact hmin _ hlt' (by rw [hrep]; exact hm)
  have hmem : ∀ i ∈ Finset.range m, r^[i] n ∈ D.toFinset := by
    intro i hi
    rw [Finset.mem_range] at hi
    rw [List.mem_toFinset]
    by_contra hx
    exact hmin i hi (hw1 _ hx)
  have hcard : m ≤ D.length := by
    have h1 : (Finset.range m).card ≤ D.toFinset.card :=
      Finset.card_le_card_of_injOn (fun i => r^[i] n) hmem hinj
    have h2 : D.toFinset.card ≤ D.length := D.toFinset_card_le
    rw [Finset.card_range] at h1
    omega
  have hfix : r^[D.length] n = r^[m] n := by
    have : r^[(D.length - m) + m] n = r^[m] n := by
      rw [Function.iterate_add_apply, Function.iterate_fixed hm]
    rwa [Nat.sub_add_cancel hcard] at this
  rw [hfix]; exact hm

/-! ### sameType algebra -/

/-- `sameType` is reflexive (the pointer-equality shortcut). -/
theorem sameType_refl (h : Heap) (p : Ptr) : sameType h p p = true := by
  simp [sameType]

/-- `sameType` is symmetric. -/
theorem sameType_symm (h : Heap) (p q : Ptr) : sameType h p q = sameType h q p := by
  unfold sameType
  by_cases hpq : p = q
  · simp [hpq]
  · have hqp : ¬ q = p := fun hh => hpq hh.symm
    rw [if_neg hpq, if_neg hqp]
    by_cases h0 : p = 0 ∨ q = 0
    · rw [if_pos h0, if_pos (Or.symm h0)]
    · rw [if_neg h0, if_neg (fun hh => h0 (Or.symm hh))]
      by_cases hpr : tipPrint (h p) = tipPrint (h q)
      · simp [hpr]
      · have hpr' : ¬ tipPrint (h q) = tipPrint (h p) := fun hh => hpr hh.symm
        simp [hpr, hpr']

/-- A null pointer is `sameType` only with the null pointer. -/
theorem sameType_zero_left (h : Heap) (q : Ptr) :
    sameType h 0 q = true ↔ q = 0 := by
  unfold sameType
  by_cases hq : (0 : Ptr) = q
  · simp [hq.symm, ← hq]
  · rw [if_neg hq, if_pos (Or.inl rfl)]
    simp only [Bool.false_eq_true, false_iff]
    exact fun hh => hq hh.symm

/-- Characterisation of `sameType`: the identical pointer, or two non-null
pointers whose pointees print identically. -/
theorem sameType_iff (h : Heap) (p q : Ptr) :
    sameType h p q = true ↔
      p = q ∨ (p ≠ 0 ∧ q ≠ 0 ∧ tipPrint (h p) = tipPrint (h q)) := by
  unfold sameType
  by_cases hpq : p = q
  · simp [hpq]
  · rw [if_neg hpq]
    by_cases h0 : p = 0 ∨ q = 0
    · rw [if_pos h0]
      simp only [Bool.false_eq_true, false_iff]
      rintro (rfl | ⟨hp, hq, _⟩)
      · exact hpq rfl
      · rcases h0 with h0 | h0
        · exact hp h0
        · exact hq h0
    · rw [if_neg h0]
      push_neg at h0
      simp [beq_iff_eq, hpq, h0.1, h0.2]

/-- `sameType` is transitive. -/
theorem sameType_trans (h : Heap) (p q t : Ptr)
    (h₁ : sameType h p q = true) (h₂ : sameType h q t = true) :
    sameType h p t = true := by
  rw [sameType_iff] at h₁ h₂ ⊢
  rcases h₁ with rfl | ⟨hp, hq, hpr⟩
  · exact h₂
  · rcases h₂ with rfl | ⟨_, ht, hqr⟩
    · exact Or.inr ⟨hp, hq, hpr⟩
    · exact Or.inr ⟨hp, ht, hpr.trans hqr⟩

/-- A non-null pointer is never `sameType` with null. -/
theorem sameType_ne_zero (h : Heap) (p q : Ptr) (hp : p ≠ 0)
    (hs : sameType h p q = true) : q ≠ 0 := by
  rw [sameType_iff] at hs
  rcases hs with rfl | ⟨_, hq, _⟩
  · exact hp
  · exact hq

/-! ### addNode -/

/-- `addNode` on an already-registered identifier is the identity. -/
theorem addNode_mem (s : Solver) (n : String) (hn : n ∈ s.dom) :
    addNode s n = s := by
  rw [addNode, if_pos hn]

/-- The registered identifier belongs to the domain afterwards. -/
theorem mem_addNode_self (s : Solver) (n : String) : n ∈ (addNode s n).dom := by
  rw [addNode]
  by_cases hn : n ∈ s.dom
  · rwa [if_pos hn]
  · rw [if_neg hn]; exact List.mem_cons_self n s.dom

/-- `addNode` never removes identifiers from the domain. -/
theorem mem_addNode_of_mem (s : Solver) (n m : String) (hm : m ∈ s.dom) :
    m ∈ (addNode s n).dom := by
  rw [addNode]
  by_cases hn : n ∈ s.dom
  · rwa [if_pos hn]
  · rw [if_neg hn]; exact List.mem_cons_of_mem n hm

/-! ### The reachable-state invariant -/

/-- In a state whose unregistered identifiers are self-parented and whose
chains terminate, the fuel-bounded chase of `findRoot` lands on a
self-parented identifier. -/
theorem rootD_isRoot' (s : Solver)
    (hw1 : ∀ x, x ∉ s.dom → s.node2root x = x)
    (n : String)
    (hk : ∃ k, s.node2root (s.node2root^[k] n) = s.node2root^[k] n) :
    s.node2root (rootD s n) = rootD s n := by
  rw [rootD, chase_eq_iterate]
  exact iterate_hit_bound s.node2root s.dom hw1 n hk

/-- `findRoot`'s chase lands on a self-parented identifier (invariant form). -/
theorem rootD_isRoot (h : Heap) (s : Solver) (hs : SolverInv h s) (n : String) :
    s.node2root (rootD s n) = rootD s n :=
  rootD_isRoot' s hs.wf1root n (hs.rooted n)

/-- Any self-parented identifier reached by iterating the parent map from `n`
is the value `findRoot` computes for `n`. -/
theorem rootD_eq (s : Solver)
    (hw1 : ∀ x, x ∉ s.dom → s.node2root x = x)
    (n m : String) (k : Nat) (hreach : s.node2root^[k] n = m)
    (hroot : s.node2root m = m) : rootD s n = m := by
  have hk : ∃ j, s.node2root (s.node2root^[j] n) = s.node2root^[j] n :=
    ⟨k, by rw [hreach, hroot]⟩
  have h1 : s.node2root (rootD s n) = rootD s n := rootD_isRoot' s hw1 n hk
  have h2 : s.node2root^[s.dom.length] n = rootD s n := by
    rw [rootD, chase_eq_iterate]
  exact iterate_root_unique s.node2root n _ m s.dom.length k h2 hreach h1 hroot

/-- The chase is idempotent: the root of a root is itself. -/
theorem rootD_idem (h : Heap) (s : Solver) (hs : SolverInv h s) (n : String) :
    rootD s (rootD s n) = rootD s n :=
  rootD_eq s hs.wf1root _ _ 0 rfl (rootD_isRoot h s hs n)

/-- A self-parented identifier is its own `findRoot` value. -/
theorem rootD_self (s : Solver) (n : String) (hn : s.node2root n = n) :
    rootD s n = n :=
  chase_fixed _ _ _ hn

/-- Unregistered identifiers are their own roots. -/
theorem rootD_not_mem (h : Heap) (s : Solver) (hs : SolverInv h s) (n : String)
    (hn : n ∉ s.dom) : rootD s n = n :=
  rootD_self s n (hs.wf1root n hn)

/-- Iterating the parent map does not leave the registered domain. -/
theorem iterate_mem_dom (s : Solver)
    (hw2 : ∀ x, x ∈ s.dom → s.node2root x ∈ s.dom)
    (n : String) (hn : n ∈ s.dom) (k : Nat) : s.node2root^[k] n ∈ s.dom := by
  induction k with
  | zero => exact hn
  | succ k ih => rw [Function.iterate_succ_apply']; exact hw2 _ ih

/-- Roots of registered identifiers are registered. -/
theorem rootD_mem (h : Heap) (s : Solver) (hs : SolverInv h s) (n : String)
    (hn : n ∈ s.dom) : rootD s n ∈ s.dom := by
  rw [rootD, chase_eq_iterate]
  exact iterate_mem_dom s hs.wf2 n hn _

/-- An identifier whose root carries a payload is registered (otherwise it
would be its own root with a null payload). -/
theorem mem_of_rootType_ne_zero (h : Heap) (s : Solver) (hs : SolverInv h s)
    (n : String) (hn : s.node2type (rootD s n) ≠ 0) : n ∈ s.dom := by
  by_contra hmem
  have h1 : rootD s n = n := rootD_not_mem h s hs n hmem
  rw [h1] at hn
  exact hn (hs.wf1type n hmem)

/-- `addNode` leaves the parent map unchanged as a function: for a fresh
identifier the written value `n ↦ n` is the value the map already takes
outside its domain. -/
theorem addNode_root (h : Heap) (s : Solver) (hs : SolverInv h s) (n : String) :
    (addNode s n).node2root = s.node2root := by
  rw [addNode]
  by_cases hn : n ∈ s.dom
  · rw [if_pos hn]
  · rw [if_neg hn]
    show Function.update s.node2root n n = s.node2root
    have h1 : s.node2root n = n := hs.wf1root n hn
    calc Function.update s.node2root n n
        = Function.update s.node2root n (s.node2root n) := by rw [h1]
      _ = s.node2root := Function.update_eq_self n s.node2root

/-- `addNode` leaves the payload map unchanged as a function. -/
theorem addNode_type (h : Heap) (s : Solver) (hs : SolverInv h s) (n : String) :
    (addNode s n).node2type = s.node2type := by
  rw [addNode]
  by_cases hn : n ∈ s.dom
  · rw [if_pos hn]
  · rw [if_neg hn]
    show Function.update s.node2type n 0 = s.node2type
    have h1 : s.node2type n = 0 := hs.wf1type n hn
    calc Function.update s.node2type n 0
        = Function.update s.node2type n (s.node2type n) := by rw [h1]
      _ = s.node2type := Function.update_eq_self n s.node2type

/-- `addNode` does not change the root any identifier resolves to. -/
theorem rootD_addNode (h : Heap) (s : Solver) (hs : SolverInv h s) (n m : String) :
    rootD (addNode s n) m = rootD s m := by
  have hroot := addNode_root h s hs n
  have hw1 : ∀ x, x ∉ (addNode s n).dom → (addNode s n).node2root x = x := by
    intro x hx
    rw [hroot]
    refine hs.wf1root x (fun hmem => hx ?_)
    exact mem_addNode_of_mem s n x hmem
  refine rootD_eq (addNode s n) hw1 m (rootD s m) s.dom.length ?_ ?_
  · rw [hroot, ← chase_eq_iterate, ← rootD]
  · rw [hroot]; exact rootD_isRoot h s hs m

/-- `addNode` does not change the payload any identifier resolves to. -/
theorem getTypeD_addNode (h : Heap) (s : Solver) (hs : SolverInv h s) (n m : String) :
    getTypeD (addNode s n) m = getTypeD s m := by
  rw [getTypeD, getTypeD, rootD_addNode h s hs n m, addNode_type h s hs n]

/-- `addNode` preserves the invariant. -/
theorem SolverInv_addNode (h : Heap) (s : Solver) (hs : SolverInv h s) (n : String) :
    SolverInv h (addNode s n) := by
  have hroot := addNode_root h s hs n
  have htype := addNode_type h s hs n
  refine ⟨?_, ?_, ?_, ?_, ?_⟩
  · intro m hm
    rw [hroot]
    exact hs.wf1root m (fun hmem => hm (mem_addNode_of_mem s n m hmem))
  · intro m hm
    rw [htype]
    exact hs.wf1type m (fun hmem => hm (mem_addNode_of_mem s n m hmem))
  · intro m hm
    rw [hroot]
    by_cases hmem : m ∈ s.dom
    · exact mem_addNode_of_mem s n _ (hs.wf2 m hmem)
    · rw [hs.wf1root m hmem]; exact hm
  · intro m
    rw [hroot]
    exact hs.rooted m
  · intro m hm
    rw [htype] at hm ⊢
    rw [rootD_addNode h s hs n m]
    exact hs.coh m hm

/-! ### Linking one root under another -/

/-- Transfer of roots across a link `rx ↦ ry` of two distinct self-parented
identifiers: chains that ended at `rx` now end at `ry`, all other chains are
untouched.  Stated on raw parent maps. -/
theorem iterate_update_link (r : String → String) (rx ry : String)
    (hrx : r rx = rx) (hry : r ry = ry) (hne : rx ≠ ry)
    (n m : String) (k : Nat) (hreach : r^[k] n = m) (hroot : r m = m) :
    ∃ j, (Function.update r rx ry)^[j] n = (if m = rx then ry else m) ∧
      Function.update r rx ry (if m = rx then ry else m) =
        (if m = rx then ry else m) := by
  classical
  set u := Function.update r rx ry with hu
  have hu_ne : ∀ z, z ≠ rx → u z = r z := by
    intro z hz
    rw [hu, Function.update_noteq hz]
  have hu_rx : u rx = ry := by rw [hu, Function.update_same]
  have hroot_if : u (if m = rx then ry else m) = (if m = rx then ry else m) := by
    by_cases hm : m = rx
    · rw [if_pos hm, hu_ne ry hne.symm, hry]
    · rw [if_neg hm, hu_ne m hm, hroot]
  have hk : ∃ j, r (r^[j] n) = r^[j] n := ⟨k, by rw [hreach, hroot]⟩
  set k0 := Nat.find hk with hk0def
  have hk0 : r (r^[k0] n) = r^[k0] n := Nat.find_spec hk
  have hmin : ∀ i, i < k0 → r (r^[i] n) ≠ r^[i] n := fun i hi => Nat.find_min hk hi
  have hval : r^[k0] n = m :=
    iterate_root_unique r n _ m k0 k rfl hreach hk0 hroot
  have htransfer : ∀ i, i ≤ k0 → u^[i] n = r^[i] n := by
    intro i hi
    induction i with
    | zero => rfl
    | succ i ih =>
      have hi' : i ≤ k0 := Nat.le_of_succ_le hi
      have hilt : i < k0 := Nat.lt_of_succ_le hi
      have hnrx : r^[i] n ≠ rx := by
        intro hcontra
        exact hmin i hilt (by rw [hcontra, hrx])
      rw [Function.iterate_succ_apply', Function.iterate_succ_apply', ih hi',
        hu_ne _ hnrx]
  by_cases hm : m = rx
  · refine ⟨k0 + 1, ?_, hroot_if⟩
    rw [if_pos hm, Function.iterate_succ_apply', htransfer k0 (Nat.le_refl k0),
      hval, hm, hu_rx]
  · exact ⟨k0, by rw [if_neg hm, htransfer k0 (Nat.le_refl k0), hval], hroot_if⟩

/-! ### Restating the operations in closed form -/

/-- `unifyNodes`, with the idempotent re-registrations performed by the two
inner `findRoot` calls collapsed away. -/
theorem unifyNodes_eq (h : Heap) (s : Solver) (x y : String) :
    unifyNodes h s x y =
      (let s4 := addNode (addNode s x) y
       let rx := rootD s4 x
       let ry := rootD s4 y
       if rx = ry then (s4, none)
       else if s4.node2type rx = 0 then
         ({ s4 with node2type := Function.update s4.node2type rx (s4.node2type ry)
                    node2root := Function.update s4.node2root rx ry }, none)
       else if s4.node2type ry = 0 then
         ({ s4 with node2type := Function.update s4.node2type ry (s4.node2type rx)
                    node2root := Function.update s4.node2root ry rx }, none)
       else if ¬ sameType h (s4.node2type rx) (s4.node2type ry) then
         (s4, some (" Type error: " ++ x ++ " " ++ tipPrint (h (s4.node2type rx)) ++
                    " does not match " ++ tipPrint (h (s4.node2type ry))))
       else
         ({ s4 with node2root := Function.update s4.node2root rx ry }, none)) := by
  have hx2 : x ∈ (addNode (addNode s x) y).dom :=
    mem_addNode_of_mem _ _ _ (mem_addNode_self s x)
  have h3 : addNode (addNode (addNode s x) y) x = addNode (addNode s x) y :=
    addNode_mem _ _ hx2
  have hy3 : y ∈ (addNode (addNode s x) y).dom := mem_addNode_self _ y
  have h4 : addNode (addNode (addNode s x) y) y = addNode (addNode s x) y :=
    addNode_mem _ _ hy3
  show (let s1 := addNode s x
        let s2 := addNode s1 y
        let p3 := findRoot s2 x
        let p4 := findRoot p3.1 y
        let s4 := p4.1
        let rx := p3.2
        let ry := p4.2
        if rx = ry then (s4, none)
        else if s4.node2type rx = 0 then
          ({ s4 with node2type := Function.update s4.node2type rx (s4.node2type ry)
                     node2root := Function.update s4.node2root rx ry }, none)
        else if s4.node2type ry = 0 then
          ({ s4 with node2type := Function.update s4.node2type ry (s4.node2type rx)
                     node2root := Function.update s4.node2root ry rx }, none)
        else if ¬ sameType h (s4.node2type rx) (s4.node2type ry) then
          (s4, some (" Type error: " ++ x ++ " " ++ tipPrint (h (s4.node2type rx)) ++
                     " does not match " ++ tipPrint (h (s4.node2type ry))))
        else
          ({ s4 with node2root := Function.update s4.node2root rx ry }, none)) = _
  simp only [findRoot, h3, h4]

/-- `setType`, with the inner `findRoot`'s re-registration collapsed away. -/
theorem setType_eq (h : Heap) (s : Solver) (n : String) (p : Ptr) :
    setType h s n p =
      (let s1 := addNode s n
       let r := rootD s1 n
       if s1.node2type r = 0 then
         ({ s1 with node2type := Function.update s1.node2type r p }, none)
       else if ¬ sameType h (s1.node2type r) p then
         (s1, some (" Type error: " ++ r ++ tipPrint (h (s1.node2type r)) ++
                    " does not match type: " ++ tipPrint (h p)))
       else (s1, none)) := by
  have h2 : addNode (addNode s n) n = addNode s n :=
    addNode_mem _ _ (mem_addNode_self s n)
  show (let s1 := addNode s n
        let p2 := findRoot s1 n
        let s2 := p2.1
        let r := p2.2
        if s2.node2type r = 0 then
          ({ s2 with node2type := Function.update s2.node2type r p }, none)
        else if ¬ sameType h (s2.node2type r) p then
          (s2, some (" Type error: " ++ r ++ tipPrint (h (s2.node2type r)) ++
                     " does not match type: " ++ tipPrint (h p)))
        else (s2, none)) = _
  simp only [findRoot, h2]

/-- `getType`, with the inner `findRoot`'s re-registration collapsed away. -/
theorem getType_eq (s : Solver) (n : String) :
    getType s n = (addNode s n, getTypeD (addNode s n) n) := by
  have h2 : addNode (addNode s n) n = addNode s n :=
    addNode_mem _ _ (mem_addNode_self s n)
  show (let s1 := addNode s n
        let p2 := findRoot s1 n
        (p2.1, p2.1.node2type p2.2)) = _
  simp only [findRoot, h2, getTypeD]

/-- `unifyNodes` in terms of its factored branch structure. -/
theorem unifyNodes_eq_core (h : Heap) (s : Solver) (x y : String) :
    unifyNodes h s x y =
      unifyCore h (addNode (addNode s x) y) x
        (rootD (addNode (addNode s x) y) x)
        (rootD (addNode (addNode s x) y) y) :=
  unifyNodes_eq h s x y

/-- `setType` in terms of its factored branch structure. -/
theorem setType_eq_core (h : Heap) (s : Solver) (n : String) (p : Ptr) :
    setType h s n p =
      setTypeCore h (addNode s n) (rootD (addNode s n) n) p :=
  setType_eq h s n p

/-- Roots after linking `rx` under `ry`: classes that resolved to `rx` now
resolve to `ry`, everything else is unchanged. -/
theorem rootD_link (h : Heap) (s : Solver) (hs : SolverInv h s)
    (rx ry : String) (hrx : s.node2root rx = rx) (hry : s.node2root ry = ry)
    (hne : rx ≠ ry) (hrxdom : rx ∈ s.dom)
    (t : Solver) (hdom : t.dom = s.dom)
    (hroot : t.node2root = Function.update s.node2root rx ry)
    (n : String) :
    rootD t n = (if rootD s n = rx then ry else rootD s n) := by
  obtain ⟨j, hreach, hrootj⟩ :=
    iterate_update_link s.node2root rx ry hrx hry hne n (rootD s n)
      s.dom.length (by rw [← chase_eq_iterate]; rfl) (rootD_isRoot h s hs n)
  refine rootD_eq t ?_ n _ j ?_ ?_
  · intro z hz
    rw [hroot]
    have hzdom : z ∉ s.dom := by rwa [hdom] at hz
    have hzrx : z ≠ rx := fun hh => hzdom (hh ▸ hrxdom)
    rw [Function.update_noteq hzrx]
    exact hs.wf1root z hzdom
  · rw [hroot]; exact hreach
  · rw [hroot]; exact hrootj

/-- Chains still terminate after linking `rx` under `ry`. -/
theorem rooted_link (h : Heap) (s : Solver) (hs : SolverInv h s)
    (rx ry : String) (hrx : s.node2root rx = rx) (hry : s.node2root ry = ry)
    (hne : rx ≠ ry) (n : String) :
    ∃ k, Function.update s.node2root rx ry
        ((Function.update s.node2root rx ry)^[k] n) =
      (Function.update s.node2root rx ry)^[k] n := by
  obtain ⟨j, hreach, hrootj⟩ :=
    iterate_update_link s.node2root rx ry hrx hry hne n (rootD s n)
      s.dom.length (by rw [← chase_eq_iterate]; rfl) (rootD_isRoot h s hs n)
  exact ⟨j, by rw [hreach]; exact hrootj⟩

/-- Linking a payload-free root `rx` under a root `ry` (after `rx`'s entry
receives `ry`'s payload pointer, as the source does) preserves the invariant. -/
theorem SolverInv_link (h : Heap) (s4 : Solver) (hs4 : SolverInv h s4)
    (rx ry : String) (hrx : s4.node2root rx = rx) (hry : s4.node2root ry = ry)
    (hne : rx ≠ ry) (hrxmem : rx ∈ s4.dom) (hrymem : ry ∈ s4.dom)
    (h0x : s4.node2type rx = 0) :
    SolverInv h
      { s4 with node2type := Function.update s4.node2type rx (s4.node2type ry)
                node2root := Function.update s4.node2root rx ry } := by
  set t : Solver :=
    { s4 with node2type := Function.update s4.node2type rx (s4.node2type ry)
              node2root := Function.update s4.node2root rx ry } with htdef
  have htroot : t.node2root = Function.update s4.node2root rx ry := rfl
  have httype : t.node2type = Function.update s4.node2type rx (s4.node2type ry) := rfl
  have htdom : t.dom = s4.dom := rfl
  have hrootD : ∀ n, rootD t n = (if rootD s4 n = rx then ry else rootD s4 n) :=
    rootD_link h s4 hs4 rx ry hrx hry hne hrxmem t htdom htroot
  refine ⟨?_, ?_, ?_, ?_, ?_⟩
  · intro z hz
    rw [htdom] at hz
    have hzrx : z ≠ rx := fun hh => hz (hh ▸ hrxmem)
    rw [htroot, Function.update_noteq hzrx]
    exact hs4.wf1root z hz
  · intro z hz
    rw [htdom] at hz
    have hzrx : z ≠ rx := fun hh => hz (hh ▸ hrxmem)
    rw [httype, Function.update_noteq hzrx]
    exact hs4.wf1type z hz
  · intro z hz
    rw [htdom] at hz ⊢
    rw [htroot]
    by_cases hzrx : z = rx
    · rw [hzrx, Function.update_same]; exact hrymem
    · rw [Function.update_noteq hzrx]; exact hs4.wf2 z hz
  · intro z
    rw [htroot]
    exact rooted_link h s4 hs4 rx ry hrx hry hne z
  · intro z hz
    rw [httype] at hz ⊢
    rw [hrootD z]
    by_cases hzrx : z = rx
    · rw [hzrx] at hz ⊢
      rw [Function.update_same] at hz ⊢
      rw [rootD_self s4 rx hrx, if_pos rfl, Function.update_noteq hne.symm]
      exact sameType_refl h _
    · rw [Function.update_noteq hzrx] at hz ⊢
      have hcoh := hs4.coh z hz
      by_cases hR : rootD s4 z = rx
      · exfalso
        have := sameType_ne_zero h (s4.node2type z) _ hz hcoh
        rw [hR, h0x] at this
        exact this rfl
      · rw [if_neg hR, Function.update_noteq hR]
        exact hcoh

/-- Linking a root `rx` under a root `ry` when both payloads are present and
structurally identical preserves the invariant. -/
theorem SolverInv_link_compat (h : Heap) (s4 : Solver) (hs4 : SolverInv h s4)
    (rx ry : String) (hrx : s4.node2root rx = rx) (hry : s4.node2root ry = ry)
    (hne : rx ≠ ry) (hrxmem : rx ∈ s4.dom) (hrymem : ry ∈ s4.dom)
    (hcompat : sameType h (s4.node2type rx) (s4.node2type ry) = true) :
    SolverInv h { s4 with node2root := Function.update s4.node2root rx ry } := by
  set t : Solver := { s4 with node2root := Function.update s4.node2root rx ry }
    with htdef
  have htroot : t.node2root = Function.update s4.node2root rx ry := rfl
  have httype : t.node2type = s4.node2type := rfl
  have htdom : t.dom = s4.dom := rfl
  have hrootD : ∀ n, rootD t n = (if rootD s4 n = rx then ry else rootD s4 n) :=
    rootD_link h s4 hs4 rx ry hrx hry hne hrxmem t htdom htroot
  refine ⟨?_, ?_, ?_, ?_, ?_⟩
  · intro z hz
    rw [htdom] at hz
    have hzrx : z ≠ rx := fun hh => hz (hh ▸ hrxmem)
    rw [htroot, Function.update_noteq hzrx]
    exact hs4.wf1root z hz
  · intro z hz
    rw [htdom] at hz
    rw [httype]
    exact hs4.wf1type z hz
  · intro z hz
    rw [htdom] at hz ⊢
    rw [htroot]
    by_cases hzrx : z = rx
    · rw [hzrx, Function.update_same]; exact hrymem
    · rw [Function.update_noteq hzrx]; exact hs4.wf2 z hz
  · intro z
    rw [htroot]
    exact rooted_link h s4 hs4 rx ry hrx hry hne z
  · intro z hz
    rw [httype] at hz ⊢
    rw [hrootD z]
    have hcoh := hs4.coh z hz
    by_cases hR : rootD s4 z = rx
    · rw [if_pos hR]
      rw [hR] at hcoh
      exact sameType_trans h _ _ _ hcoh hcompat
    · rw [if_neg hR]
      exact hcoh

/-- `setType` preserves the invariant. -/
theorem SolverInv_setType (h : Heap) (s : Solver) (hs : SolverInv h s)
    (n : String) (p : Ptr) : SolverInv h (setType h s n p).1 := by
  rw [setType_eq_core]
  have hs1 : SolverInv h (addNode s n) := SolverInv_addNode h s hs n
  set s1 := addNode s n with hs1def
  set r := rootD s1 n with hrdef
  have hrmem : r ∈ s1.dom := rootD_mem h s1 hs1 n (mem_addNode_self s n)
  have hrroot : s1.node2root r = r := rootD_isRoot h s1 hs1 n
  rw [setTypeCore]
  by_cases h0 : s1.node2type r = 0
  · rw [if_pos h0]
    set t : Solver := { s1 with node2type := Function.update s1.node2type r p }
      with htdef
    have httype : t.node2type = Function.update s1.node2type r p := rfl
    have htroot : t.node2root = s1.node2root := rfl
    have htdom : t.dom = s1.dom := rfl
    have hrootD : ∀ m, rootD t m = rootD s1 m := fun m => rfl
    refine ⟨?_, ?_, ?_, ?_, ?_⟩
    · intro z hz
      rw [htdom] at hz
      rw [htroot]
      exact hs1.wf1root z hz
    · intro z hz
      rw [htdom] at hz
      have hzr : z ≠ r := fun hh => hz (hh ▸ hrmem)
      rw [httype, Function.update_noteq hzr]
      exact hs1.wf1type z hz
    · intro z hz
      rw [htdom] at hz ⊢
      rw [htroot]
      exact hs1.wf2 z hz
    · intro z
      rw [htroot]
      exact hs1.rooted z
    · intro z hz
      rw [httype] at hz ⊢
      rw [hrootD z]
      by_cases hzr : z = r
      · rw [hzr] at hz ⊢
        rw [Function.update_same] at hz ⊢
        rw [rootD_self s1 r hrroot, Function.update_same]
        exact sameType_refl h p
      · rw [Function.update_noteq hzr] at hz ⊢
        have hcoh := hs1.coh z hz
        by_cases hR : rootD s1 z = r
        · exfalso
          have := sameType_ne_zero h (s1.node2type z) _ hz hcoh
          rw [hR, h0] at this
          exact this rfl
        · rw [Function.update_noteq hR]
          exact hcoh
  · rw [if_neg h0]
    by_cases hcompat : sameType h (s1.node2type r) p = true
    · rw [if_neg (by simp [hcompat])]
      exact hs1
    · rw [if_pos (by simp [hcompat])]
      exact hs1

/-- `unifyNodes` preserves the invariant. -/
theorem SolverInv_unify (h : Heap) (s : Solver) (hs : SolverInv h s)
    (x y : String) : SolverInv h (unifyNodes h s x y).1 := by
  rw [unifyNodes_eq_core]
  have hs4 : SolverInv h (addNode (addNode s x) y) :=
    SolverInv_addNode h _ (SolverInv_addNode h s hs x) y
  set s4 := addNode (addNode s x) y with hs4def
  set rx := rootD s4 x with hrxdef
  set ry := rootD s4 y with hrydef
  have hrxroot : s4.node2root rx = rx := rootD_isRoot h s4 hs4 x
  have hryroot : s4.node2root ry = ry := rootD_isRoot h s4 hs4 y
  have hxmem : x ∈ s4.dom := mem_addNode_of_mem _ _ _ (mem_addNode_self s x)
  have hymem : y ∈ s4.dom := mem_addNode_self _ y
  have hrxmem : rx ∈ s4.dom := rootD_mem h s4 hs4 x hxmem
  have hrymem : ry ∈ s4.dom := rootD_mem h s4 hs4 y hymem
  rw [unifyCore]
  by_cases hrr : rx = ry
  · rw [if_pos hrr]; exact hs4
  · rw [if_neg hrr]
    by_cases h0x : s4.node2type rx = 0
    · rw [if_pos h0x]
      exact SolverInv_link h s4 hs4 rx ry hrxroot hryroot hrr hrxmem hrymem h0x
    · rw [if_neg h0x]
      by_cases h0y : s4.node2type ry = 0
      · rw [if_pos h0y]
        exact SolverInv_link h s4 hs4 ry rx hryroot hrxroot
          (fun hh => hrr hh.symm) hrymem hrxmem h0y
      · rw [if_neg h0y]
        by_cases hcompat : sameType h (s4.node2type rx) (s4.node2type ry) = true
        · rw [if_neg (by simp [hcompat])]
          exact SolverInv_link_compat h s4 hs4 rx ry hrxroot hryroot hrr
            hrxmem hrymem hcompat
        · rw [if_pos (by simp [hcompat])]
          exact hs4

/-- The invariant holds for a fresh solver. -/
theorem SolverInv_init (h : Heap) : SolverInv h Solver.init := by
  refine ⟨?_, ?_, ?_, ?_, ?_⟩
  · intro n _; rfl
  · intro n _; rfl
  · intro n hn; exact absurd hn (List.not_mem_nil n)
  · intro n; exact ⟨0, rfl⟩
  · intro n hn; exact absurd rfl hn

/-- Every state reachable through the solver's public operations satisfies
the invariant. -/
theorem reachable_SolverInv (h : Heap) (s : Solver) (hr : Reachable h s) :
    SolverInv h s := by
  induction hr with
  | init => exact SolverInv_init h
  | step_addNode n _ ih => exact SolverInv_addNode h _ ih n
  | step_unify x y _ ih => exact SolverInv_unify h _ ih x y
  | step_setType n p _ ih => exact SolverInv_setType h _ ih n p


/-! ### Observations of the operations, branch by branch -/

/-- Registering two identifiers leaves the parent map unchanged as a function. -/
theorem addNode2_root (h : Heap) (s : Solver) (hs : SolverInv h s)
    (x y : String) : (addNode (addNode s x) y).node2root = s.node2root := by
  rw [addNode_root h _ (SolverInv_addNode h s hs x) y, addNode_root h s hs x]

/-- Registering two identifiers leaves the payload map unchanged as a function. -/
theorem addNode2_type (h : Heap) (s : Solver) (hs : SolverInv h s)
    (x y : String) : (addNode (addNode s x) y).node2type = s.node2type := by
  rw [addNode_type h _ (SolverInv_addNode h s hs x) y, addNode_type h s hs x]

/-- Registering two identifiers does not change any root. -/
theorem rootD_addNode2 (h : Heap) (s : Solver) (hs : SolverInv h s)
    (x y m : String) : rootD (addNode (addNode s x) y) m = rootD s m := by
  rw [rootD_addNode h _ (SolverInv_addNode h s hs x) y m, rootD_addNode h s hs x m]

/-- `unifyNodes` observation, branch `rootx == rooty`: normal return, no root
or payload changes. -/
theorem unify_obs_same (h : Heap) (s : Solver) (hs : SolverInv h s)
    (x y : String) (hrr : rootD s x = rootD s y) :
    (unifyNodes h s x y).2 = none ∧
    (∀ m, rootD (unifyNodes h s x y).1 m = rootD s m) ∧
    (∀ m, (unifyNodes h s x y).1.node2type m = s.node2type m) := by
  rw [unifyNodes_eq_core]
  set s4 := addNode (addNode s x) y with hs4def
  have hrx4 : rootD s4 x = rootD s x := rootD_addNode2 h s hs x y x
  have hry4 : rootD s4 y = rootD s y := rootD_addNode2 h s hs x y y
  rw [unifyCore, hrx4, hry4, if_pos hrr]
  refine ⟨rfl, ?_, ?_⟩
  · intro m; exact rootD_addNode2 h s hs x y m
  · intro m; rw [addNode2_type h s hs x y]

/-- `unifyNodes` observation, branch `node2type[rootx] == nullptr`: normal
return; `rootx` is linked under `rooty` and its entry receives `rooty`'s
payload pointer; classes that resolved to `rootx` now resolve to `rooty`. -/
theorem unify_obs_inherit_left (h : Heap) (s : Solver) (hs : SolverInv h s)
    (x y : String) (hrr : rootD s x ≠ rootD s y)
    (h0x : s.node2type (rootD s x) = 0) :
    (unifyNodes h s x y).2 = none ∧
    (∀ m, rootD (unifyNodes h s x y).1 m =
      (if rootD s m = rootD s x then rootD s y else rootD s m)) ∧
    (∀ m, (unifyNodes h s x y).1.node2type m =
      (if m = rootD s x then s.node2type (rootD s y) else s.node2type m)) ∧
    (∀ m, (unifyNodes h s x y).1.node2root m =
      (if m = rootD s x then rootD s y else s.node2root m)) := by
  rw [unifyNodes_eq_core]
  have hs4 : SolverInv h (addNode (addNode s x) y) :=
    SolverInv_addNode h _ (SolverInv_addNode h s hs x) y
  set s4 := addNode (addNode s x) y with hs4def
  have hrx4 : rootD s4 x = rootD s x := rootD_addNode2 h s hs x y x
  have hry4 : rootD s4 y = rootD s y := rootD_addNode2 h s hs x y y
  have htype4 : s4.node2type = s.node2type := addNode2_type h s hs x y
  have hroot4 : s4.node2root = s.node2root := addNode2_root h s hs x y
  have hrxroot : s4.node2root (rootD s x) = rootD s x := by
    rw [← hrx4]; exact rootD_isRoot h s4 hs4 x
  have hryroot : s4.node2root (rootD s y) = rootD s y := by
    rw [← hry4]; exact rootD_isRoot h s4 hs4 y
  have hrxmem : rootD s x ∈ s4.dom := by
    rw [← hrx4]
    exact rootD_mem h s4 hs4 x (mem_addNode_of_mem _ _ _ (mem_addNode_self s x))
  have h0x4 : s4.node2type (rootD s x) = 0 := by rw [htype4]; exact h0x
  rw [unifyCore, hrx4, hry4, if_neg hrr, if_pos h0x4]
  refine ⟨rfl, ?_, ?_, ?_⟩
  · intro m
    have hlink := rootD_link h s4 hs4 (rootD s x) (rootD s y) hrxroot hryroot hrr
      hrxmem
      { s4 with node2type := Function.update s4.node2type (rootD s x)
                  (s4.node2type (rootD s y))
                node2root := Function.update s4.node2root (rootD s x) (rootD s y) }
      rfl rfl m
    rw [hlink, rootD_addNode2 h s hs x y m]
  · intro m
    show Function.update s4.node2type (rootD s x) (s4.node2type (rootD s y)) m = _
    rw [htype4, Function.update_apply]
  · intro m
    show Function.update s4.node2root (rootD s x) (rootD s y) m = _
    rw [hroot4, Function.update_apply]

/-- `unifyNodes` observation, branch `node2type[rooty] == nullptr` (with
`rootx` carrying a payload): normal return; `rooty` is linked under `rootx`
and its entry receives `rootx`'s payload pointer. -/
theorem unify_obs_inherit_right (h : Heap) (s : Solver) (hs : SolverInv h s)
    (x y : String) (hrr : rootD s x ≠ rootD s y)
    (h0x : s.node2type (rootD s x) ≠ 0)
    (h0y : s.node2type (rootD s y) = 0) :
    (unifyNodes h s x y).2 = none ∧
    (∀ m, rootD (unifyNodes h s x y).1 m =
      (if rootD s m = rootD s y then rootD s x else rootD s m)) ∧
    (∀ m, (unifyNodes h s x y).1.node2type m =
      (if m = rootD s y then s.node2type (rootD s x) else s.node2type m)) ∧
    (∀ m, (unifyNodes h s x y).1.node2root m =
      (if m = rootD s y then rootD s x else s.node2root m)) := by
  rw [unifyNodes_eq_core]
  have hs4 : SolverInv h (addNode (addNode s x) y) :=
    SolverInv_addNode h _ (SolverInv_addNode h s hs x) y
  set s4 := addNode (addNode s x) y with hs4def
  have hrx4 : rootD s4 x = rootD s x := rootD_addNode2 h s hs x y x
  have hry4 : rootD s4 y = rootD s y := rootD_addNode2 h s hs x y y
  have htype4 : s4.node2type = s.node2type := addNode2_type h s hs x y
  have hroot4 : s4.node2root = s.node2root := addNode2_root h s hs x y
  have hrxroot : s4.node2root (rootD s x) = rootD s x := by
    rw [← hrx4]; exact rootD_isRoot h s4 hs4 x
  have hryroot : s4.node2root (rootD s y) = rootD s y := by
    rw [← hry4]; exact rootD_isRoot h s4 hs4 y
  have hrymem : rootD s y ∈ s4.dom := by
    rw [← hry4]
    exact rootD_mem h s4 hs4 y (mem_addNode_self _ y)
  have h0x4 : ¬ s4.node2type (rootD s x) = 0 := by rw [htype4]; exact h0x
  have h0y4 : s4.node2type (rootD s y) = 0 := by rw [htype4]; exact h0y
  rw [unifyCore, hrx4, hry4, if_neg hrr, if_neg h0x4, if_pos h0y4]
  refine ⟨rfl, ?_, ?_, ?_⟩
  · intro m
    have hlink := rootD_link h s4 hs4 (rootD s y) (rootD s x) hryroot hrxroot
      (fun hh => hrr hh.symm) hrymem
      { s4 with node2type := Function.update s4.node2type (rootD s y)
                  (s4.node2type (rootD s x))
                node2root := Function.update s4.node2root (rootD s y) (rootD s x) }
      rfl rfl m
    rw [hlink, rootD_addNode2 h s hs x y m]
  · intro m
    show Function.update s4.node2type (rootD s y) (s4.node2type (rootD s x)) m = _
    rw [htype4, Function.update_apply]
  · intro m
    show Function.update s4.node2root (rootD s y) (rootD s x) m = _
    rw [hroot4, Function.update_apply]

/-- `unifyNodes` observation, mismatch branch: both roots carry payloads that
fail `sameType`; the exception carries the source's message and the state is
exactly the state before the call. -/
theorem unify_obs_mismatch (h : Heap) (s : Solver) (hs : SolverInv h s)
    (x y : String)
    (h0x : s.node2type (rootD s x) ≠ 0)
    (h0y : s.node2type (rootD s y) ≠ 0)
    (hbad : sameType h (s.node2type (rootD s x)) (s.node2type (rootD s y)) = false) :
    unifyNodes h s x y =
      (s, some (" Type error: " ++ x ++ " " ++ tipPrint (h (s.node2type (rootD s x))) ++
                " does not match " ++ tipPrint (h (s.node2type (rootD s y))))) := by
  have hxmem : x ∈ s.dom := mem_of_rootType_ne_zero h s hs x h0x
  have hymem : y ∈ s.dom := mem_of_rootType_ne_zero h s hs y h0y
  have hadd : addNode (addNode s x) y = s := by
    rw [addNode_mem s x hxmem, addNode_mem s y hymem]
  have hrr : rootD s x ≠ rootD s y := by
    intro hcontra
    rw [hcontra, sameType_refl h _] at hbad
    exact Bool.true_eq_false.mp hbad
  rw [unifyNodes_eq_core, hadd, unifyCore, if_neg hrr, if_neg h0x, if_neg h0y,
    if_pos (by rw [hbad]; exact Bool.false_ne_true)]

/-- `unifyNodes` observation, compatible-payloads branch: both roots carry
payloads that pass `sameType`; `rootx` is linked under `rooty`, payload
entries untouched. -/
theorem unify_obs_compat (h : Heap) (s : Solver) (hs : SolverInv h s)
    (x y : String) (hrr : rootD s x ≠ rootD s y)
    (h0x : s.node2type (rootD s x) ≠ 0)
    (h0y : s.node2type (rootD s y) ≠ 0)
    (hgood : sameType h (s.node2type (rootD s x)) (s.node2type (rootD s y)) = true) :
    (unifyNodes h s x y).2 = none ∧
    (∀ m, rootD (unifyNodes h s x y).1 m =
      (if rootD s m = rootD s x then rootD s y else rootD s m)) ∧
    (∀ m, (unifyNodes h s x y).1.node2type m = s.node2type m) := by
  rw [unifyNodes_eq_core]
  have hs4 : SolverInv h (addNode (addNode s x) y) :=
    SolverInv_addNode h _ (SolverInv_addNode h s hs x) y
  set s4 := addNode (addNode s x) y with hs4def
  have hrx4 : rootD s4 x = rootD s x := rootD_addNode2 h s hs x y x
  have hry4 : rootD s4 y = rootD s y := rootD_addNode2 h s hs x y y
  have htype4 : s4.node2type = s.node2type := addNode2_type h s hs x y
  have hrxroot : s4.node2root (rootD s x) = rootD s x := by
    rw [← hrx4]; exact rootD_isRoot h s4 hs4 x
  have hryroot : s4.node2root (rootD s y) = rootD s y := by
    rw [← hry4]; exact rootD_isRoot h s4 hs4 y
  have hrxmem : rootD s x ∈ s4.dom := by
    rw [← hrx4]
    exact rootD_mem h s4 hs4 x (mem_addNode_of_mem _ _ _ (mem_addNode_self s x))
  have h0x4 : ¬ s4.node2type (rootD s x) = 0 := by rw [htype4]; exact h0x
  have h0y4 : ¬ s4.node2type (rootD s y) = 0 := by rw [htype4]; exact h0y
  have hgood4 : ¬ ¬ sameType h (s4.node2type (rootD s x)) (s4.node2type (rootD s y)) = true := by
    rw [htype4, hgood]; exact fun hh => hh rfl
  rw [unifyCore, hrx4, hry4, if_neg hrr, if_neg h0x4, if_neg h0y4, if_neg hgood4]
  refine ⟨rfl, ?_, ?_⟩
  · intro m
    have hlink := rootD_link h s4 hs4 (rootD s x) (rootD s y) hrxroot hryroot hrr
      hrxmem
      { s4 with node2root := Function.update s4.node2root (rootD s x) (rootD s y) }
      rfl rfl m
    rw [hlink, rootD_addNode2 h s hs x y m]
  · intro m
    show s4.node2type m = _
    rw [htype4]

/-- `setType` observation, attach branch: the root has no payload; normal
return, the root's entry receives the new payload pointer, no root changes. -/
theorem setType_obs_attach (h : Heap) (s : Solver) (hs : SolverInv h s)
    (n : String) (p : Ptr) (h0 : s.node2type (rootD s n) = 0) :
    (setType h s n p).2 = none ∧
    (∀ m, rootD (setType h s n p).1 m = rootD s m) ∧
    (∀ m, (setType h s n p).1.node2type m =
      (if m = rootD s n then p else s.node2type m)) := by
  rw [setType_eq_core]
  have hs1 : SolverInv h (addNode s n) := SolverInv_addNode h s hs n
  set s1 := addNode s n with hs1def
  have hr1 : rootD s1 n = rootD s n := rootD_addNode h s hs n n
  have htype1 : s1.node2type = s.node2type := addNode_type h s hs n
  have h01 : s1.node2type (rootD s1 n) = 0 := by rw [hr1, htype1]; exact h0
  rw [setTypeCore, if_pos h01]
  refine ⟨rfl, ?_, ?_⟩
  · intro m
    have heq : rootD { s1 with
        node2type := Function.update s1.node2type (rootD s1 n) p } m = rootD s1 m := rfl
    rw [heq]
    exact rootD_addNode h s hs n m
  · intro m
    show Function.update s1.node2type (rootD s1 n) p m = _
    rw [hr1, htype1, Function.update_apply]

/-- `setType` observation, mismatch branch: the root's payload fails
`sameType` against the new one; the exception carries the source's message
and the state is exactly the state before the call. -/
theorem setType_obs_mismatch (h : Heap) (s : Solver) (hs : SolverInv h s)
    (n : String) (p : Ptr) (h0 : s.node2type (rootD s n) ≠ 0)
    (hbad : sameType h (s.node2type (rootD s n)) p = false) :
    setType h s n p =
      (s, some (" Type error: " ++ rootD s n ++ tipPrint (h (s.node2type (rootD s n))) ++
                " does not match type: " ++ tipPrint (h p))) := by
  have hnmem : n ∈ s.dom := mem_of_rootType_ne_zero h s hs n h0
  have hadd : addNode s n = s := addNode_mem s n hnmem
  rw [setType_eq_core, hadd, setTypeCore, if_neg h0,
    if_pos (by rw [hbad]; exact Bool.false_ne_true)]

/-- `setType` observation, compatible re-set branch: the root's payload
passes `sameType` against the new one; normal return, state exactly as
before the call. -/
theorem setType_obs_noop (h : Heap) (s : Solver) (hs : SolverInv h s)
    (n : String) (p : Ptr) (h0 : s.node2type (rootD s n) ≠ 0)
    (hgood : sameType h (s.node2type (rootD s n)) p = true) :
    setType h s n p = (s, none) := by
  have hnmem : n ∈ s.dom := mem_of_rootType_ne_zero h s hs n h0
  have hadd : addNode s n = s := addNode_mem s n hnmem
  rw [setType_eq_core, hadd, setTypeCore, if_neg h0,
    if_neg (by rw [hgood]; exact fun hh => hh rfl)]

/-- A successful `unifyNodes` leaves its two arguments with a common root. -/
theorem unify_success_merge (h : Heap) (s : Solver) (hs : SolverInv h s)
    (x y : String) (hsucc : (unifyNodes h s x y).2 = none) :
    rootD (unifyNodes h s x y).1 x = rootD (unifyNodes h s x y).1 y := by
  by_cases hrr : rootD s x = rootD s y
  · obtain ⟨_, h2, _⟩ := unify_obs_same h s hs x y hrr
    rw [h2 x, h2 y, hrr]
  · by_cases h0x : s.node2type (rootD s x) = 0
    · obtain ⟨_, h2, _, _⟩ := unify_obs_inherit_left h s hs x y hrr h0x
      rw [h2 x, h2 y, if_pos rfl, if_neg (fun hh => hrr hh.symm)]
    · by_cases h0y : s.node2type (rootD s y) = 0
      · obtain ⟨_, h2, _, _⟩ := unify_obs_inherit_right h s hs x y hrr h0x h0y
        rw [h2 x, h2 y, if_neg hrr, if_pos rfl]
      · by_cases hst : sameType h (s.node2type (rootD s x)) (s.node2type (rootD s y)) = true
        · obtain ⟨_, h2, _⟩ := unify_obs_compat h s hs x y hrr h0x h0y hst
          rw [h2 x, h2 y, if_pos rfl, if_neg (fun hh => hrr hh.symm)]
        · exfalso
          have hbad : sameType h (s.node2type (rootD s x)) (s.node2type (rootD s y)) = false := by
            cases hx : sameType h (s.node2type (rootD s x)) (s.node2type (rootD s y)) with
            | false => rfl
            | true => exact absurd hx hst
          rw [unify_obs_mismatch h s hs x y h0x h0y hbad] at hsucc
          exact Option.some_ne_none _ hsucc

/-- `unifyNodes` only coarsens the partition: identifiers that shared a root
before the call still share one after it, in every branch. -/
theorem unify_coarsen (h : Heap) (s : Solver) (hs : SolverInv h s)
    (x y m m' : String) (hmm : rootD s m = rootD s m') :
    rootD (unifyNodes h s x y).1 m = rootD (unifyNodes h s x y).1 m' := by
  by_cases hrr : rootD s x = rootD s y
  · obtain ⟨_, h2, _⟩ := unify_obs_same h s hs x y hrr
    rw [h2 m, h2 m', hmm]
  · by_cases h0x : s.node2type (rootD s x) = 0
    · obtain ⟨_, h2, _, _⟩ := unify_obs_inherit_left h s hs x y hrr h0x
      rw [h2 m, h2 m', hmm]
    · by_cases h0y : s.node2type (rootD s y) = 0
      · obtain ⟨_, h2, _, _⟩ := unify_obs_inherit_right h s hs x y hrr h0x h0y
        rw [h2 m, h2 m', hmm]
      · by_cases hst : sameType h (s.node2type (rootD s x)) (s.node2type (rootD s y)) = true
        · obtain ⟨_, h2, _⟩ := unify_obs_compat h s hs x y hrr h0x h0y hst
          rw [h2 m, h2 m', hmm]
        · have hbad : sameType h (s.node2type (rootD s x)) (s.node2type (rootD s y)) = false := by
            cases hx : sameType h (s.node2type (rootD s x)) (s.node2type (rootD s y)) with
            | false => rfl
            | true => exact absurd hx hst
          rw [unify_obs_mismatch h s hs x y h0x h0y hbad]
          exact hmm

/-- The concrete run `exS1` is a reachable state. -/
theorem reach_exS1 : Reachable exHeap exS1 :=
  Reachable.step_setType "x" 1 Reachable.init

/-- The concrete run `exS2` is a reachable state. -/
theorem reach_exS2 : Reachable exHeap exS2 :=
  Reachable.step_setType "y" 2 reach_exS1

/-- A message of the shape the spec asserts starts with the character `T`. -/
theorem specErrorForm_head (m : String) (hm : specErrorForm m) :
    m.data.head? = some 'T' := by
  obtain ⟨ctx, a, b, rfl⟩ := hm
  simp only [String.data_append]
  rfl

/-! ### The claims -/

/-- Claim C1: when both roots carry payloads that are incompatible,
`unifyNodes` raises a type-mismatch error and performs no mutation of the
forest's linking or payloads — the state after the failed call is exactly
the state before it, so `getType` and `findRoot` answer as before for both
identifiers. -/
theorem unify_incompatible_no_mutation (h : Heap) (s : Solver)
    (a b : String) (hr : Reachable h s)
    (ha : s.node2type (rootD s a) ≠ 0) (hb : s.node2type (rootD s b) ≠ 0)
    (hbad : sameType h (s.node2type (rootD s a)) (s.node2type (rootD s b)) = false) :
    (∃ msg, (unifyNodes h s a b).2 = some msg) ∧
    (unifyNodes h s a b).1 = s ∧
    getTypeD (unifyNodes h s a b).1 a = getTypeD s a ∧
    getTypeD (unifyNodes h s a b).1 b = getTypeD s b ∧
    rootD (unifyNodes h s a b).1 a = rootD s a ∧
    rootD (unifyNodes h s a b).1 b = rootD s b := by
  have hs := reachable_SolverInv h s hr
  rw [unify_obs_mismatch h s hs a b ha hb hbad]
  exact ⟨⟨_, rfl⟩, rfl, rfl, rfl, rfl, rfl⟩

/-- Witness for C1 at a concrete run: `"x"` fixed to `int`, `"y"` fixed to
`&int`, then unified. -/
theorem unify_incompatible_no_mutation_witness :
    (∃ msg, (unifyNodes exHeap exS2 "x" "y").2 = some msg) ∧
    (unifyNodes exHeap exS2 "x" "y").1 = exS2 :=
  ⟨(unify_incompatible_no_mutation exHeap exS2 "x" "y" reach_exS2
      (by decide) (by decide) (by decide)).1,
   (unify_incompatible_no_mutation exHeap exS2 "x" "y" reach_exS2
      (by decide) (by decide) (by decide)).2.1⟩

/-- Claim C2, counterexample: `sameType` has no special case for unresolved
`Var` terms — the free variable `α<0>` (address 3) is not compatible with
`int` (address 1), and the null "unbound" payload is not compatible with a
non-null one either, contradicting "a free (unbound) term is compatible with
every term". -/
theorem sameType_var_counterexample :
    exHeap 3 = TIPtype.var 0 ∧ exHeap 1 = TIPtype.int ∧
    sameType exHeap 3 1 = false ∧ sameType exHeap 0 1 = false :=
  ⟨rfl, rfl, by decide, by decide⟩

/-- Claim C2 (amended): the solver's compatibility check `sameType` holds
exactly when the two payload pointers are identical (including both null), or
both are non-null and their pointees have equal printed forms.  An unresolved
`Var` is compatible only with a term printing identically, not with every
term. -/
theorem sameType_characterisation (h : Heap) (p q : Ptr) :
    sameType h p q = true ↔
      p = q ∨ (p ≠ 0 ∧ q ≠ 0 ∧ tipPrint (h p) = tipPrint (h q)) :=
  sameType_iff h p q

/-- Claim C3, counterexample: a `setType` mismatch produces
`" Type error: xint does not match type: &int"` — it starts with a space,
runs the context into the first printed term, and says `"does not match
type: "` — which is not of the shape `"Type error: <context> <A> does not
match <B>"` for any choice of context and printed terms. -/
theorem setType_message_shape_counterexample :
    (setType exHeap exS1 "x" 2).2 =
      some " Type error: xint does not match type: &int" ∧
    ¬ specErrorForm " Type error: xint does not match type: &int" := by
  refine ⟨by decide, fun hm => ?_⟩
  have h1 := specErrorForm_head _ hm
  have h2 : (" Type error: xint does not match type: &int").data.head? = some ' ' := rfl
  rw [h1] at h2
  exact absurd (Option.some.inj h2) (by decide)

/-- Claim C3 (amended): every type-mismatch message the solver raises has one
of the two source shapes — from `unifyNodes`,
`" Type error: <x> <print A> does not match <print B>"` (note the leading
space), and from `setType`,
`" Type error: <root><print A> does not match type: <print B>"` (no separator
after the context, and the extra word `type:`), where the printed terms are
the conflicting payloads' printed forms. -/
theorem tip_error_message_form (h : Heap) (s : Solver) (hr : Reachable h s)
    (x y n : String) (p : Ptr) :
    (∀ msg, (unifyNodes h s x y).2 = some msg →
      msg = " Type error: " ++ x ++ " " ++ tipPrint (h (getTypeD s x)) ++
            " does not match " ++ tipPrint (h (getTypeD s y))) ∧
    (∀ msg, (setType h s n p).2 = some msg →
      msg = " Type error: " ++ rootD s n ++ tipPrint (h (getTypeD s n)) ++
            " does not match type: " ++ tipPrint (h p)) := by
  have hs := reachable_SolverInv h s hr
  constructor
  · intro msg hmsg
    by_cases hrr : rootD s x = rootD s y
    · rw [(unify_obs_same h s hs x y hrr).1] at hmsg
      exact absurd hmsg (Option.noConfusion)
    · by_cases h0x : s.node2type (rootD s x) = 0
      · rw [(unify_obs_inherit_left h s hs x y hrr h0x).1] at hmsg
        exact absurd hmsg (Option.noConfusion)
      · by_cases h0y : s.node2type (rootD s y) = 0
        · rw [(unify_obs_inherit_right h s hs x y hrr h0x h0y).1] at hmsg
          exact absurd hmsg (Option.noConfusion)
        · by_cases hst : sameType h (s.node2type (rootD s x)) (s.node2type (rootD s y)) = true
          · rw [(unify_obs_compat h s hs x y hrr h0x h0y hst).1] at hmsg
            exact absurd hmsg (Option.noConfusion)
          · have hbad : sameType h (s.node2type (rootD s x)) (s.node2type (rootD s y)) = false := by
              cases hc : sameType h (s.node2type (rootD s x)) (s.node2type (rootD s y)) with
              | false => rfl
              | true => exact absurd hc hst
            rw [unify_obs_mismatch h s hs x y h0x h0y hbad] at hmsg
            exact (Option.some.inj hmsg).symm
  · intro msg hmsg
    by_cases h0 : s.node2type (rootD s n) = 0
    · rw [(setType_obs_attach h s hs n p h0).1] at hmsg
      exact absurd hmsg (Option.noConfusion)
    · by_cases hst : sameType h (s.node2type (rootD s n)) p = true
      · rw [setType_obs_noop h s hs n p h0 hst] at hmsg
        exact absurd hmsg (Option.noConfusion)
      · have hbad : sameType h (s.node2type (rootD s n)) p = false := by
          cases hc : sameType h (s.node2type (rootD s n)) p with
          | false => rfl
          | true => exact absurd hc hst
        rw [setType_obs_mismatch h s hs n p h0 hbad] at hmsg
        exact (Option.some.inj hmsg).symm

/-- Witness for the amended C3 at a concrete `setType` mismatch. -/
theorem tip_error_message_form_witness :
    (setType exHeap exS1 "x" 2).2 =
      some (" Type error: " ++ rootD exS1 "x" ++ tipPrint (exHeap (getTypeD exS1 "x")) ++
            " does not match type: " ++ tipPrint (exHeap 2)) := by
  have he : (setType exHeap exS1 "x" 2).2 =
      some " Type error: xint does not match type: &int" := by decide
  rw [he, (tip_error_message_form exHeap exS1 reach_exS1 "x" "x" "x" 2).2 _ he]

/-- Claim C4: when the two roots are distinct and exactly one carries a
payload, `unifyNodes` links the payload-free root under the payload-carrying
one; the empty side's entry ends up holding the very pointer stored at the
payload root (the payload is shared, not copied into a fresh term), and every
member of either class subsequently resolves — root and payload — through the
combined representative. -/
theorem unify_one_sided_payload (h : Heap) (s : Solver) (a b : String)
    (hr : Reachable h s) (hne : rootD s a ≠ rootD s b)
    (hone : (s.node2type (rootD s a) = 0 ∧ s.node2type (rootD s b) ≠ 0) ∨
            (s.node2type (rootD s a) ≠ 0 ∧ s.node2type (rootD s b) = 0)) :
    (unifyNodes h s a b).2 = none ∧
    (unifyNodes h s a b).1.node2root
        (if s.node2type (rootD s a) = 0 then rootD s a else rootD s b) =
      (if s.node2type (rootD s a) = 0 then rootD s b else rootD s a) ∧
    (unifyNodes h s a b).1.node2type
        (if s.node2type (rootD s a) = 0 then rootD s a else rootD s b) =
      s.node2type (if s.node2type (rootD s a) = 0 then rootD s b else rootD s a) ∧
    (∀ m, rootD s m = rootD s a ∨ rootD s m = rootD s b →
      rootD (unifyNodes h s a b).1 m =
        (if s.node2type (rootD s a) = 0 then rootD s b else rootD s a) ∧
      getTypeD (unifyNodes h s a b).1 m =
        s.node2type (if s.node2type (rootD s a) = 0 then rootD s b else rootD s a)) := by
  have hs := reachable_SolverInv h s hr
  rcases hone with ⟨h0a, h0b⟩ | ⟨h0a, h0b⟩
  · obtain ⟨he, hroot, htype, hraw⟩ := unify_obs_inherit_left h s hs a b hne h0a
    simp only [if_pos h0a]
    refine ⟨he, ?_, ?_, ?_⟩
    · rw [hraw (rootD s a), if_pos rfl]
    · rw [htype (rootD s a), if_pos rfl]
    · intro m hm
      have hrm : rootD (unifyNodes h s a b).1 m = rootD s b := by
        rcases hm with hm | hm
        · rw [hroot m, if_pos hm]
        · rw [hroot m, hm, if_neg (fun hh => hne hh.symm)]
      refine ⟨hrm, ?_⟩
      rw [getTypeD, hrm, htype (rootD s b), if_neg (fun hh => hne hh.symm)]
  · obtain ⟨he, hroot, htype, hraw⟩ := unify_obs_inherit_right h s hs a b hne h0a h0b
    simp only [if_neg h0a]
    refine ⟨he, ?_, ?_, ?_⟩
    · rw [hraw (rootD s b), if_pos rfl]
    · rw [htype (rootD s b), if_pos rfl]
    · intro m hm
      have hrm : rootD (unifyNodes h s a b).1 m = rootD s a := by
        rcases hm with hm | hm
        · rw [hroot m, hm, if_neg hne]
        · rw [hroot m, if_pos hm]
      refine ⟨hrm, ?_⟩
      rw [getTypeD, hrm, htype (rootD s a), if_neg hne]

/-- Witness for C4 at a concrete run: `"x"` carries `int`, `"u"` is fresh
and payload-free; after unification `"u"` resolves through `"x"`. -/
theorem unify_one_sided_payload_witness :
    rootD (unifyNodes exHeap exS1 "x" "u").1 "u" =
      (if exS1.node2type (rootD exS1 "x") = 0 then rootD exS1 "u" else rootD exS1 "x") ∧
    getTypeD (unifyNodes exHeap exS1 "x" "u").1 "u" =
      exS1.node2type
        (if exS1.node2type (rootD exS1 "x") = 0 then rootD exS1 "u" else rootD exS1 "x") :=
  (unify_one_sided_payload exHeap exS1 "x" "u" reach_exS1 (by decide)
    (Or.inr ⟨by decide, by decide⟩)).2.2.2 "u" (Or.inr (by decide))

/-- Claim C5: in every reachable state, an equivalence class carries at most
one payload up to structural identity — any two non-null payload entries of
one class pass `sameType` — and an attempt to attach an incompatible second
payload through `setType` raises a type error with no mutation at all. -/
theorem class_payload_invariant (h : Heap) (s : Solver) (hr : Reachable h s) :
    (∀ a b, rootD s a = rootD s b → s.node2type a ≠ 0 → s.node2type b ≠ 0 →
      sameType h (s.node2type a) (s.node2type b) = true) ∧
    (∀ n p, s.node2type (rootD s n) ≠ 0 →
      sameType h (s.node2type (rootD s n)) p = false →
      (setType h s n p).2 ≠ none ∧ (setType h s n p).1 = s) := by
  have hs := reachable_SolverInv h s hr
  constructor
  · intro a b hab ha hb
    have hca := hs.coh a ha
    have hcb := hs.coh b hb
    rw [hab] at hca
    exact sameType_trans h _ _ _ hca (by rw [sameType_symm]; exact hcb)
  · intro n p h0 hbad
    rw [setType_obs_mismatch h s hs n p h0 hbad]
    exact ⟨Option.some_ne_none _, rfl⟩

/-- Witness for C5 at a concrete run. -/
theorem class_payload_invariant_witness :
    sameType exHeap (exS1.node2type "x") (exS1.node2type "x") = true ∧
    (setType exHeap exS1 "x" 2).2 ≠ none :=
  ⟨(class_payload_invariant exHeap exS1 reach_exS1).1 "x" "x" rfl
      (by decide) (by decide),
   ((class_payload_invariant exHeap exS1 reach_exS1).2 "x" 2
      (by decide) (by decide)).1⟩

/-- Claim C6: unifying two identifiers already in the same equivalence class
is a no-op — it never raises, and afterwards every identifier resolves to the
same root and the same payload as before, even when the class carries a
payload. -/
theorem unify_idempotent_noop (h : Heap) (s : Solver) (a b : String)
    (hr : Reachable h s) (hrr : rootD s a = rootD s b) :
    (unifyNodes h s a b).2 = none ∧
    (∀ m, rootD (unifyNodes h s a b).1 m = rootD s m ∧
          getTypeD (unifyNodes h s a b).1 m = getTypeD s m) := by
  have hs := reachable_SolverInv h s hr
  obtain ⟨he, hroot, htype⟩ := unify_obs_same h s hs a b hrr
  refine ⟨he, fun m => ⟨hroot m, ?_⟩⟩
  rw [getTypeD, getTypeD, hroot m, htype]

/-- Witness for C6 at a concrete run whose class carries a payload. -/
theorem unify_idempotent_noop_witness :
    (unifyNodes exHeap exS1 "x" "x").2 = none ∧
    rootD (unifyNodes exHeap exS1 "x" "x").1 "x" = rootD exS1 "x" :=
  ⟨(unify_idempotent_noop exHeap exS1 "x" "x" reach_exS1 rfl).1,
   ((unify_idempotent_noop exHeap exS1 "x" "x" reach_exS1 rfl).2 "x").1⟩

/-- Claim C7: if `unify(a,b)` succeeds and then `unify(b,c)` succeeds, all
three identifiers resolve to structurally equal payloads — indeed to the very
same payload pointer — and `a` and `c` share a root. -/
theorem unify_transitivity (h : Heap) (s : Solver) (a b c : String)
    (hr : Reachable h s)
    (h1 : (unifyNodes h s a b).2 = none)
    (h2 : (unifyNodes h (unifyNodes h s a b).1 b c).2 = none) :
    getTypeD (unifyNodes h (unifyNodes h s a b).1 b c).1 a =
      getTypeD (unifyNodes h (unifyNodes h s a b).1 b c).1 b ∧
    getTypeD (unifyNodes h (unifyNodes h s a b).1 b c).1 b =
      getTypeD (unifyNodes h (unifyNodes h s a b).1 b c).1 c ∧
    rootD (unifyNodes h (unifyNodes h s a b).1 b c).1 a =
      rootD (unifyNodes h (unifyNodes h s a b).1 b c).1 c := by
  have hs := reachable_SolverInv h s hr
  have hs1 : SolverInv h (unifyNodes h s a b).1 := SolverInv_unify h s hs a b
  have hab : rootD (unifyNodes h s a b).1 a = rootD (unifyNodes h s a b).1 b :=
    unify_success_merge h s hs a b h1
  have hbc : rootD (unifyNodes h (unifyNodes h s a b).1 b c).1 b =
      rootD (unifyNodes h (unifyNodes h s a b).1 b c).1 c :=
    unify_success_merge h _ hs1 b c h2
  have hab2 : rootD (unifyNodes h (unifyNodes h s a b).1 b c).1 a =
      rootD (unifyNodes h (unifyNodes h s a b).1 b c).1 b :=
    unify_coarsen h _ hs1 b c a b hab
  refine ⟨?_, ?_, hab2.trans hbc⟩
  · rw [getTypeD, getTypeD, hab2]
  · rw [getTypeD, getTypeD, hbc]

/-- Witness for C7 at a concrete run of two successful unifications. -/
theorem unify_transitivity_witness :
    rootD (unifyNodes exHeap (unifyNodes exHeap Solver.init "a" "b").1 "b" "c").1 "a" =
      rootD (unifyNodes exHeap (unifyNodes exHeap Solver.init "a" "b").1 "b" "c").1 "c" :=
  (unify_transitivity exHeap Solver.init "a" "b" "c" Reachable.init
    (by decide) (by decide)).2.2

/-- Claim C8: `unify(a,b)` and `unify(b,a)` are observably equivalent — they
raise in exactly the same situations, and afterwards every identifier's
resolved payload is structurally identical in the two resulting forests (the
internal choice of root and surviving payload pointer may differ). -/
theorem unify_symmetry (h : Heap) (s : Solver) (a b : String)
    (hr : Reachable h s) :
    ((unifyNodes h s a b).2.isSome ↔ (unifyNodes h s b a).2.isSome) ∧
    (∀ m, sameType h (getTypeD (unifyNodes h s a b).1 m)
                     (getTypeD (unifyNodes h s b a).1 m) = true) := by
  have hs := reachable_SolverInv h s hr
  by_cases hrr : rootD s a = rootD s b
  · obtain ⟨e1, r1, t1⟩ := unify_obs_same h s hs a b hrr
    obtain ⟨e2, r2, t2⟩ := unify_obs_same h s hs b a hrr.symm
    refine ⟨by rw [e1, e2], fun m => ?_⟩
    simp only [getTypeD]
    rw [r1 m, r2 m, t1, t2]
    exact sameType_refl h _
  · have hrr' : rootD s b ≠ rootD s a := fun hh => hrr hh.symm
    by_cases h0a : s.node2type (rootD s a) = 0
    · by_cases h0b : s.node2type (rootD s b) = 0
      · -- both classes payload-free: the two calls link in opposite
        -- directions, but every payload involved is null
        obtain ⟨e1, r1, t1, _⟩ := unify_obs_inherit_left h s hs a b hrr h0a
        obtain ⟨e2, r2, t2, _⟩ := unify_obs_inherit_left h s hs b a hrr' h0b
        refine ⟨by rw [e1, e2], fun m => ?_⟩
        simp only [getTypeD]
        rw [r1 m, r2 m, t1, t2]
        by_cases hma : rootD s m = rootD s a
        · have hmb : ¬ rootD s m = rootD s b := fun hh => hrr (hma.symm.trans hh)
          simp only [if_pos hma, if_neg hmb]
          rw [if_neg (fun hh : rootD s b = rootD s a => hrr hh.symm), hma, h0a, h0b]
          exact sameType_refl h 0
        · by_cases hmb : rootD s m = rootD s b
          · simp only [if_pos hmb, if_neg hma]
            rw [if_neg hrr, hmb, h0a, h0b]
            exact sameType_refl h 0
          · simp only [if_neg hma, if_neg hmb]
            exact sameType_refl h _
      · -- `a`'s class payload-free, `b`'s carries a payload: both calls
        -- link `a`'s root under `b`'s and copy the same pointer
        obtain ⟨e1, r1, t1, _⟩ := unify_obs_inherit_left h s hs a b hrr h0a
        obtain ⟨e2, r2, t2, _⟩ := unify_obs_inherit_right h s hs b a hrr' h0b h0a
        refine ⟨by rw [e1, e2], fun m => ?_⟩
        simp only [getTypeD]
        rw [r1 m, r2 m, t1, t2]
        exact sameType_refl h _
    · by_cases h0b : s.node2type (rootD s b) = 0
      · -- mirror of the previous case
        obtain ⟨e1, r1, t1, _⟩ := unify_obs_inherit_right h s hs a b hrr h0a h0b
        obtain ⟨e2, r2, t2, _⟩ := unify_obs_inherit_left h s hs b a hrr' h0b
        refine ⟨by rw [e1, e2], fun m => ?_⟩
        simp only [getTypeD]
        rw [r1 m, r2 m, t1, t2]
        exact sameType_refl h _
      · by_cases hst : sameType h (s.node2type (rootD s a)) (s.node2type (rootD s b)) = true
        · -- both payloads present and compatible: opposite roots survive,
          -- but the surviving payloads are structurally identical
          have hst' : sameType h (s.node2type (rootD s b)) (s.node2type (rootD s a)) = true := by
            rw [sameType_symm]; exact hst
          obtain ⟨e1, r1, t1⟩ := unify_obs_compat h s hs a b hrr h0a h0b hst
          obtain ⟨e2, r2, t2⟩ := unify_obs_compat h s hs b a hrr' h0b h0a hst'
          refine ⟨by rw [e1, e2], fun m => ?_⟩
          simp only [getTypeD]
          rw [r1 m, r2 m, t1, t2]
          by_cases hma : rootD s m = rootD s a
          · have hmb : ¬ rootD s m = rootD s b := fun hh => hrr (hma.symm.trans hh)
            rw [if_pos hma, if_neg hmb, hma]
            exact hst'
          · by_cases hmb : rootD s m = rootD s b
            · rw [if_neg hma, if_pos hmb, hmb]
              exact hst'
            · rw [if_neg hma, if_neg hmb]
              exact sameType_refl h _
        · -- both payloads present and incompatible: both calls raise
          have hbad : sameType h (s.node2type (rootD s a)) (s.node2type (rootD s b)) = false := by
            cases hc : sameType h (s.node2type (rootD s a)) (s.node2type (rootD s b)) with
            | false => rfl
            | true => exact absurd hc hst
          have hbad' : sameType h (s.node2type (rootD s b)) (s.node2type (rootD s a)) = false := by
            rw [sameType_symm]; exact hbad
          rw [unify_obs_mismatch h s hs a b h0a h0b hbad,
              unify_obs_mismatch h s hs b a h0b h0a hbad']
          exact ⟨by simp, fun m => sameType_refl h _⟩

/-- Witness for C8 at a concrete run in which both orders raise. -/
theorem unify_symmetry_witness :
    ((unifyNodes exHeap exS2 "x" "y").2.isSome ↔
      (unifyNodes exHeap exS2 "y" "x").2.isSome) ∧
    sameType exHeap (getTypeD (unifyNodes exHeap exS2 "x" "y").1 "x")
      (getTypeD (unifyNodes exHeap exS2 "y" "x").1 "x") = true :=
  ⟨(unify_symmetry exHeap exS2 "x" "y" reach_exS2).1,
   (unify_symmetry exHeap exS2 "x" "y" reach_exS2).2 "x"⟩

/-- Claim C9: `setType(id, t)` registers `id`; if `id`'s root has no payload
it attaches `t` (so `getType(id)` subsequently returns `t`); if the root
already carries a payload, it raises exactly when that payload fails
`sameType` against `t`, and a compatible re-set returns leaving the solver
exactly as it was. -/
theorem setType_contract (h : Heap) (s : Solver) (n : String) (p : Ptr)
    (hr : Reachable h s) :
    n ∈ (setType h s n p).1.dom ∧
    (s.node2type (rootD s n) = 0 →
      (setType h s n p).2 = none ∧ getTypeD (setType h s n p).1 n = p) ∧
    (s.node2type (rootD s n) ≠ 0 →
      ((setType h s n p).2.isSome ↔ sameType h (s.node2type (rootD s n)) p = false) ∧
      (sameType h (s.node2type (rootD s n)) p = true →
        (setType h s n p).1 = s)) := by
  have hs := reachable_SolverInv h s hr
  refine ⟨?_, ?_, ?_⟩
  · rw [setType_eq_core, setTypeCore]
    split_ifs <;> exact mem_addNode_self s n
  · intro h0
    obtain ⟨he, hroot, htype⟩ := setType_obs_attach h s hs n p h0
    refine ⟨he, ?_⟩
    rw [getTypeD, hroot n, htype, if_pos rfl]
  · intro h0
    by_cases hst : sameType h (s.node2type (rootD s n)) p = true
    · rw [setType_obs_noop h s hs n p h0 hst]
      refine ⟨?_, fun _ => rfl⟩
      constructor
      · intro hcontra; exact absurd hcontra (by simp)
      · intro hcontra; rw [hst] at hcontra; exact absurd hcontra (by simp)
    · have hbad : sameType h (s.node2type (rootD s n)) p = false := by
        cases hc : sameType h (s.node2type (rootD s n)) p with
        | false => rfl
        | true => exact absurd hc hst
      rw [setType_obs_mismatch h s hs n p h0 hbad]
      exact ⟨iff_of_true (by simp) hbad,
        fun hcontra => absurd hcontra (by rw [hbad]; simp)⟩

/-- Witness for C9 at a concrete compatible re-set. -/
theorem setType_contract_witness :
    (setType exHeap exS1 "x" 1).1 = exS1 :=
  ((setType_contract exHeap exS1 "x" 1 reach_exS1).2.2 (by decide)).2 (by decide)

/-- Claim C10: in every state reachable by sequences of `addNode`,
`unifyNodes`, `setType` and `getType` calls, the parent map is a forest in
which every chain reaches a self-parented root, so the `while` loop of
`findRoot` terminates; the fuel-bounded chase of the model lands on that
self-parented root, and `findRoot` returns it. -/
theorem findRoot_terminating (h : Heap) (s : Solver) (hr : Reachable h s)
    (n : String) :
    (∃ k, s.node2root (s.node2root^[k] n) = s.node2root^[k] n) ∧
    s.node2root (rootD s n) = rootD s n ∧
    (findRoot s n).2 = rootD s n := by
  have hs := reachable_SolverInv h s hr
  refine ⟨hs.rooted n, rootD_isRoot h s hs n, ?_⟩
  show rootD (addNode s n) n = rootD s n
  exact rootD_addNode h s hs n n

/-- Witness for C10 at a concrete run. -/
theorem findRoot_terminating_witness :
    (∃ k, exS2.node2root (exS2.node2root^[k] "x") = exS2.node2root^[k] "x") ∧
    exS2.node2root (rootD exS2 "x") = rootD exS2 "x" ∧
    (findRoot exS2 "x").2 = rootD exS2 "x" :=
  findRoot_terminating exHeap exS2 reach_exS2 "x"
